import Mathlib

/-!
Verification of the `AzureMistralLoader` document-loader adapter
(`backend/open_webui/retrieval/loaders/azure_mistral.py`).

The adapter is embedded shallowly:

* `initLoader` models `AzureMistralLoader.__init__`, with the filesystem
  abstracted as a predicate `fileExists : String → Bool`;
* `processResults` models `AzureMistralLoader._process_results`, with the
  page-loop rendered as the same append-accumulating fold the Python `for`
  loop performs;
* `loadModel` models `AzureMistralLoader.load`, with the fallible prefix of
  the `try` block (file read, base64 encoding, HTTP POST, status check,
  JSON parse) abstracted as an `Except String OcrResponse` outcome: `.error e`
  is an exception with message `e` caught by the `except` clause, `.ok r` is a
  successfully parsed JSON body `r`.

JSON values reaching `page_data.get("markdown")` are modelled by `JVal`
(strings, integers, booleans); a missing key or JSON `null` both surface as
Python `None` and are modelled by `Option`.
-/

namespace AzureMistral

/-- Python `str.strip()` on the character list of a string: drop whitespace
from the front, then from the back. -/
def stripChars (l : List Char) : List Char :=
  ((l.dropWhile Char.isWhitespace).reverse.dropWhile Char.isWhitespace).reverse

/-- Model of Python `str.strip()`. -/
def pyStrip (s : String) : String :=
  ⟨stripChars s.data⟩

/-- Model of `os.path.basename` on POSIX paths: the part after the last
slash. -/
def basename (p : String) : String :=
  (p.splitOn "/").getLastD ""

/-- Model of Python `endpoint.rstrip("/")`: remove every trailing slash. -/
def rstripSlashes (s : String) : String :=
  ⟨(s.data.reverse.dropWhile (fun c => c = '/')).reverse⟩

/-- JSON values that can appear as the `markdown` field of a page object.
A missing key or JSON `null` both become Python `None`, modelled by `Option`
at the use site, so `JVal` has no null constructor. -/
inductive JVal where
  | str (s : String)
  | num (n : Int)
  | bool (b : Bool)
deriving Repr, DecidableEq

/-- Python `str(...)` on a `JVal` (`str` is the identity on strings,
`str(True) = "True"`, `str(False) = "False"`, `str(n)` is the decimal
rendering of an integer). -/
def JVal.toStr : JVal → String
  | .str s => s
  | .num n => toString n
  | .bool true => "True"
  | .bool false => "False"

/-- Values stored in a document's metadata dictionary. -/
inductive MVal where
  | str (s : String)
  | int (n : Int)
deriving Repr, DecidableEq

/-- A langchain `Document`: page content plus a metadata dictionary, the
latter modelled as an association list in Python insertion order. -/
structure Document where
  page_content : String
  metadata : List (String × MVal)
deriving Repr, DecidableEq

/-- One entry of the OCR response's `pages` array: the `markdown` and `index`
fields as retrieved by `page_data.get(...)` (`none` = missing or null). -/
structure PageData where
  markdown : Option JVal
  index : Option Int
deriving Repr, DecidableEq

/-- The parsed OCR response: `ocr_response.get("pages")`
(`none` = missing or null). -/
structure OcrResponse where
  pages : Option (List PageData)
deriving Repr, DecidableEq

/-- The state stored on a successfully constructed `AzureMistralLoader`. -/
structure Loader where
  api_key : String
  endpoint : String
  file_path : String
  model : String
  timeout : Int
  include_image_base64 : Bool
  headers : List (String × String)
deriving Repr, DecidableEq

/-- The arguments of `AzureMistralLoader.__init__` (after Python applies the
defaults `model="mistral-document-ai-2505"`, `timeout=300`,
`include_image_base64=False`). -/
structure LoaderArgs where
  api_key : String
  endpoint : String
  file_path : String
  model : String
  timeout : Int
  include_image_base64 : Bool
deriving Repr, DecidableEq

/-- The exceptions `__init__` can raise. -/
inductive InitError where
  | valueError (msg : String)
  | fileNotFound (msg : String)
deriving Repr, DecidableEq

/-- The fixed request header set built in `__init__`. -/
def mkHeaders (api_key : String) : List (String × String) :=
  [("Authorization", "Bearer " ++ api_key),
   ("Content-Type", "application/json"),
   ("Accept", "application/json"),
   ("User-Agent", "OpenWebUI-AzureMistralLoader/1.0")]

/-- Model of `AzureMistralLoader.__init__`. `fileExists` abstracts
`os.path.exists`. An empty string is the only falsy `str`, so Python's
`if not api_key` is `api_key = ""`. -/
def initLoader (fileExists : String → Bool) (a : LoaderArgs) :
    Except InitError Loader :=
  if a.api_key = "" then
    .error (.valueError "API key cannot be empty.")
  else if a.endpoint = "" then
    .error (.valueError "Azure Mistral OCR endpoint cannot be empty.")
  else if fileExists a.file_path = false then
    .error (.fileNotFound ("File not found at " ++ a.file_path))
  else
    .ok { api_key := a.api_key,
          endpoint := rstripSlashes a.endpoint,
          file_path := a.file_path,
          model := a.model,
          timeout := a.timeout,
          include_image_base64 := a.include_image_base64,
          headers := mkHeaders a.api_key }

/-- The placeholder emitted when the response has no (or an empty) `pages`
field. -/
def noPagesDoc (L : Loader) : Document :=
  { page_content := "No text content found",
    metadata := [("error", .str "no_pages"),
                 ("file_name", .str (basename L.file_path))] }

/-- `cleaned_content = page_content.strip() if isinstance(page_content, str)
else str(page_content).strip()`. -/
def cleanedContent : JVal → String
  | .str s => pyStrip s
  | v => pyStrip v.toStr

/-- The document appended for a surviving page. -/
def pageDoc (L : Loader) (total_pages : Nat) (page_index : Int)
    (cleaned : String) : Document :=
  { page_content := cleaned,
    metadata := [("page", .int page_index),
                 ("page_label", .int (page_index + 1)),
                 ("total_pages", .int total_pages),
                 ("file_name", .str (basename L.file_path)),
                 ("processing_engine", .str "mistral-ocr-azure"),
                 ("content_length", .int cleaned.length)] }

/-- One iteration of the page loop in `_process_results`: `continue` (i.e.
`none`) when `markdown` or `index` is `None` or the cleaned content is empty,
otherwise the appended document. -/
def mapPage (L : Loader) (total_pages : Nat) (pd : PageData) :
    Option Document :=
  match pd.markdown, pd.index with
  | none, _ => none
  | _, none => none
  | some v, some i =>
    if cleanedContent v = "" then none
    else some (pageDoc L total_pages i (cleanedContent v))

/-- The placeholder emitted when every page was filtered out. -/
def noValidDoc (L : Loader) (total_pages : Nat) : Document :=
  { page_content := "No valid text content found in document",
    metadata := [("error", .str "no_valid_pages"),
                 ("total_pages", .int total_pages),
                 ("file_name", .str (basename L.file_path))] }

/-- One step of the `documents` accumulation in the page loop: `continue`
leaves the accumulator unchanged, otherwise `documents.append(...)`. -/
def loopStep (L : Loader) (total_pages : Nat) (acc : List Document)
    (pd : PageData) : List Document :=
  match mapPage L total_pages pd with
  | none => acc
  | some d => acc ++ [d]

/-- Model of `AzureMistralLoader._process_results`. `if not pages_data` is
true when `pages` is missing, null, or the empty list; the page loop is the
append-accumulating fold of `mapPage`. -/
def processResults (L : Loader) (r : OcrResponse) : List Document :=
  match r.pages with
  | none => [noPagesDoc L]
  | some pages =>
    if pages = [] then [noPagesDoc L]
    else
      let total_pages := pages.length
      let documents := pages.foldl (loopStep L total_pages) []
      if documents = [] then [noValidDoc L total_pages] else documents

/-- The placeholder built by the `except` clause of `load`. -/
def errorDoc (L : Loader) (e : String) : Document :=
  { page_content := "Error during processing: " ++ e,
    metadata := [("error", .str "processing_failed"),
                 ("file_name", .str (basename L.file_path))] }

/-- Model of `AzureMistralLoader.load`: the fallible prefix of the `try`
block is summarised by `outcome`; an exception is caught and turned into the
single `processing_failed` placeholder, a parsed response is handed to
`processResults`. -/
def loadModel (L : Loader) (outcome : Except String OcrResponse) :
    List Document :=
  match outcome with
  | .error e => [errorDoc L e]
  | .ok resp => processResults L resp

/-! ### Helper lemmas -/

/-- The append-accumulating page loop computes `filterMap`. -/
theorem foldl_loopStep_eq_filterMap (L : Loader) (total_pages : Nat) :
    ∀ (l : List PageData) (acc : List Document),
      l.foldl (loopStep L total_pages) acc =
        acc ++ l.filterMap (mapPage L total_pages) := by
  intro l
  induction l with
  | nil => intro acc; simp
  | cons a t ih =>
    intro acc
    cases h : mapPage L total_pages a with
    | none => simp [List.foldl_cons, loopStep, h, ih]
    | some b => simp [List.foldl_cons, loopStep, h, ih]

/-- `_process_results` on a non-empty `pages` list: the survivors of the
filter, or the `no_valid_pages` placeholder when there are none. -/
theorem processResults_some (L : Loader) (pages : List PageData)
    (h : pages ≠ []) :
    processResults L { pages := some pages } =
      (if pages.filterMap (mapPage L pages.length) = []
       then [noValidDoc L pages.length]
       else pages.filterMap (mapPage L pages.length)) := by
  simp only [processResults, if_neg h, foldl_loopStep_eq_filterMap,
    List.nil_append]

theorem dropWhile_dropWhile (p : α → Bool) (l : List α) :
    (l.dropWhile p).dropWhile p = l.dropWhile p := by
  induction l with
  | nil => rfl
  | cons a t ih =>
    by_cases h : p a
    · simp [List.dropWhile_cons, h, ih]
    · simp [List.dropWhile_cons, h]

theorem getLast?_dropWhile (p : α → Bool) (l : List α)
    (h : l.dropWhile p ≠ []) :
    (l.dropWhile p).getLast? = l.getLast? := by
  induction l with
  | nil => simp [List.dropWhile] at h
  | cons a t ih =>
    by_cases hp : p a
    · have hd : (a :: t).dropWhile p = t.dropWhile p := by
        simp [List.dropWhile_cons, hp]
      rw [hd] at h ⊢
      have ht : t ≠ [] := by
        intro he; rw [he] at h; simp [List.dropWhile] at h
      rw [ih h]
      cases t with
      | nil => exact absurd rfl ht
      | cons b u => simp [List.getLast?_cons_cons]
    · simp [List.dropWhile_cons, hp]

theorem dropWhile_eq_self_of_head? (p : α → Bool) (l : List α)
    (h : ∀ a, l.head? = some a → p a = false) :
    l.dropWhile p = l := by
  cases l with
  | nil => rfl
  | cons a t =>
    have := h a rfl
    simp [List.dropWhile_cons, this]

theorem head?_dropWhile_false (p : α → Bool) (l : List α) (a : α)
    (h : (l.dropWhile p).head? = some a) : p a = false := by
  induction l with
  | nil => simp [List.dropWhile] at h
  | cons b t ih =>
    by_cases hb : p b
    · rw [List.dropWhile_cons_of_pos hb] at h
      exact ih h
    · rw [List.dropWhile_cons_of_neg hb, List.head?_cons,
        Option.some.injEq] at h
      rw [← h]
      simpa using hb

/-- A list whose ends carry no whitespace is unchanged by stripping. -/
theorem stripChars_eq_self (l : List Char)
    (h1 : ∀ a, l.head? = some a → a.isWhitespace = false)
    (h2 : ∀ a, l.getLast? = some a → a.isWhitespace = false) :
    stripChars l = l := by
  unfold stripChars
  rw [dropWhile_eq_self_of_head? _ _ h1]
  rw [dropWhile_eq_self_of_head? _ l.reverse
    (by intro a ha; rw [List.head?_reverse] at ha; exact h2 a ha)]
  exact List.reverse_reverse l

/-- Stripping is idempotent on character lists. -/
theorem stripChars_idem (l : List Char) :
    stripChars (stripChars l) = stripChars l := by
  apply stripChars_eq_self
  · intro a ha
    unfold stripChars at ha
    rw [List.head?_reverse] at ha
    have hne :
        (List.dropWhile Char.isWhitespace
          (List.dropWhile Char.isWhitespace l).reverse) ≠ [] := by
      intro he
      rw [he] at ha
      simp at ha
    rw [getLast?_dropWhile _ _ hne, List.getLast?_reverse] at ha
    exact head?_dropWhile_false _ _ _ ha
  · intro a ha
    unfold stripChars at ha
    rw [List.getLast?_reverse] at ha
    exact head?_dropWhile_false _ _ _ ha

/-- `pyStrip` is idempotent. -/
theorem pyStrip_idem (s : String) : pyStrip (pyStrip s) = pyStrip s := by
  show String.mk (stripChars (stripChars s.data)) = String.mk (stripChars s.data)
  rw [stripChars_idem]

/-- For every `JVal` the cleaned content is the strip of its Python string
form (for strings, `str` is the identity). -/
theorem cleanedContent_eq (v : JVal) : cleanedContent v = pyStrip v.toStr := by
  cases v <;> rfl

/-- Cleaned content carries no leading or trailing whitespace. -/
theorem pyStrip_cleanedContent (v : JVal) :
    pyStrip (cleanedContent v) = cleanedContent v := by
  rw [cleanedContent_eq]
  exact pyStrip_idem _

/-- Inversion for a page that survives the filter. -/
theorem mapPage_eq_some (L : Loader) (tp : Nat) (pd : PageData)
    (d : Document) (h : mapPage L tp pd = some d) :
    ∃ v i, pd.markdown = some v ∧ pd.index = some i ∧
      cleanedContent v ≠ "" ∧ d = pageDoc L tp i (cleanedContent v) := by
  obtain ⟨m, i⟩ := pd
  cases m with
  | none => exact absurd h (by simp [mapPage])
  | some v =>
    cases i with
    | none => exact absurd h (by simp [mapPage])
    | some i =>
      by_cases hc : cleanedContent v = ""
      · rw [show mapPage L tp ⟨some v, some i⟩ =
            (if cleanedContent v = "" then none
             else some (pageDoc L tp i (cleanedContent v))) from rfl,
          if_pos hc] at h
        cases h
      · rw [show mapPage L tp ⟨some v, some i⟩ =
            (if cleanedContent v = "" then none
             else some (pageDoc L tp i (cleanedContent v))) from rfl,
          if_neg hc, Option.some.injEq] at h
        exact ⟨v, i, rfl, rfl, hc, h.symm⟩

theorem filterMap_congr_some (f : α → Option β) (g : α → β) (l : List α)
    (h : ∀ a ∈ l, f a = some (g a)) : l.filterMap f = l.map g := by
  induction l with
  | nil => rfl
  | cons a t ih =>
    rw [List.filterMap_cons_some (h a (List.mem_cons_self a t)),
      List.map_cons, ih (fun x hx => h x (List.mem_cons_of_mem a hx))]

/-- Every document `load` can return is an error placeholder, a `no_pages`
placeholder, a `no_valid_pages` placeholder, or a surviving page document. -/
theorem mem_loadModel (L : Loader) (o : Except String OcrResponse)
    (d : Document) (hd : d ∈ loadModel L o) :
    (∃ e, d = errorDoc L e) ∨ d = noPagesDoc L ∨
      (∃ tp, d = noValidDoc L tp) ∨
      (∃ tp i v, cleanedContent v ≠ "" ∧
        d = pageDoc L tp i (cleanedContent v)) := by
  cases o with
  | error e =>
    have : d = errorDoc L e := by simpa [loadModel] using hd
    exact Or.inl ⟨e, this⟩
  | ok r =>
    obtain ⟨p⟩ := r
    cases p with
    | none =>
      have : d = noPagesDoc L := by simpa [loadModel, processResults] using hd
      exact Or.inr (Or.inl this)
    | some pages =>
      by_cases hp : pages = []
      · subst hp
        have : d = noPagesDoc L := by
          simpa [loadModel, processResults] using hd
        exact Or.inr (Or.inl this)
      · have hrw : loadModel L (.ok { pages := some pages }) =
            processResults L { pages := some pages } := rfl
        rw [hrw, processResults_some L pages hp] at hd
        by_cases hf : pages.filterMap (mapPage L pages.length) = []
        · rw [if_pos hf] at hd
          have : d = noValidDoc L pages.length := by simpa using hd
          exact Or.inr (Or.inr (Or.inl ⟨pages.length, this⟩))
        · rw [if_neg hf, List.mem_filterMap] at hd
          obtain ⟨pd, _, hmap⟩ := hd
          obtain ⟨v, i, _, _, hc, hdoc⟩ :=
            mapPage_eq_some L pages.length pd d hmap
          exact Or.inr (Or.inr (Or.inr ⟨pages.length, i, v, hc, hdoc⟩))

/-! ### Example instances used by witnesses and counterexamples -/

/-- A concrete loader state, as produced by a successful construction. -/
def exLoader : Loader :=
  { api_key := "key",
    endpoint := "https://example.azure.com",
    file_path := "docs/report.pdf",
    model := "mistral-document-ai-2505",
    timeout := 300,
    include_image_base64 := false,
    headers := mkHeaders "key" }

/-- Concrete construction arguments. -/
def exArgs : LoaderArgs :=
  { api_key := "key",
    endpoint := "https://example.azure.com/",
    file_path := "docs/report.pdf",
    model := "mistral-document-ai-2505",
    timeout := 300,
    include_image_base64 := false }

/-! ### Claim theorems -/

/-- C1: `load` is modelled as a total function (every post-construction
failure is an `.error` outcome absorbed by the `except` clause, never a
thrown exception), and for every loader and every outcome the returned list
is non-empty: it is either the mapped page documents or exactly one
placeholder. -/
theorem c1_load_total_and_nonempty (L : Loader)
    (o : Except String OcrResponse) : loadModel L o ≠ [] := by
  cases o with
  | error e => simp [loadModel]
  | ok r =>
    obtain ⟨p⟩ := r
    cases p with
    | none => simp [loadModel, processResults]
    | some pages =>
      by_cases hp : pages = []
      · subst hp
        simp [loadModel, processResults]
      · show processResults L { pages := some pages } ≠ []
        rw [processResults_some L pages hp]
        by_cases hf : pages.filterMap (mapPage L pages.length) = []
        · simp [hf]
        · rw [if_neg hf]
          exact hf

/-- C3: construction succeeds iff the api_key is non-empty, the endpoint is
non-empty and the file exists (an `Except` result models raise-before-return,
so no network step can precede the checks), and on success the stored state
is exactly the given configuration with the endpoint's trailing slashes
stripped and the fixed header set. -/
theorem c3_construction_contract (fs : String → Bool) (a : LoaderArgs) :
    ((∃ L, initLoader fs a = .ok L) ↔
      (a.api_key ≠ "" ∧ a.endpoint ≠ "" ∧ fs a.file_path = true)) ∧
    (∀ L, initLoader fs a = .ok L →
      L = { api_key := a.api_key,
            endpoint := rstripSlashes a.endpoint,
            file_path := a.file_path,
            model := a.model,
            timeout := a.timeout,
            include_image_base64 := a.include_image_base64,
            headers := mkHeaders a.api_key }) := by
  unfold initLoader
  by_cases h1 : a.api_key = ""
  · simp [h1]
  · by_cases h2 : a.endpoint = ""
    · simp [h1, h2]
    · by_cases h3 : fs a.file_path
      · simp [h1, h2, h3]
      · simp [h1, h2, Bool.eq_false_iff.mpr h3]

/-- C3 witness: concrete construction succeeds under the stated conditions. -/
theorem c3_construction_contract_witness :
    ∃ L, initLoader (fun _ => true) exArgs = .ok L :=
  (c3_construction_contract (fun _ => true) exArgs).1.mpr
    ⟨by decide, by decide, rfl⟩

/-- C4: a response whose `pages` field is absent/null or the empty list maps
to exactly one placeholder whose content is "No text content found" and whose
metadata holds exactly the keys `error` (value `no_pages`) and `file_name`
(the base name of the input file), with no page metrics. -/
theorem c4_no_pages_placeholder (L : Loader) (r : OcrResponse)
    (h : r.pages = none ∨ r.pages = some []) :
    processResults L r =
      [{ page_content := "No text content found",
         metadata := [("error", .str "no_pages"),
                      ("file_name", .str (basename L.file_path))] }] := by
  obtain ⟨p⟩ := r
  rcases h with h | h <;>
    · cases h
      simp [processResults, noPagesDoc]

/-- C4 witness: the theorem applied to an absent `pages` field. -/
theorem c4_no_pages_placeholder_witness :
    (({ pages := none } : OcrResponse).pages = none ∨
      ({ pages := none } : OcrResponse).pages = some []) ∧
    processResults exLoader { pages := none } =
      [{ page_content := "No text content found",
         metadata := [("error", .str "no_pages"),
                      ("file_name", .str (basename exLoader.file_path))] }] :=
  ⟨Or.inl rfl,
    c4_no_pages_placeholder exLoader { pages := none } (Or.inl rfl)⟩

/-- C6: when the fallible prefix of `load` (file read, encoding, HTTP call,
status check, JSON parse) raises with message `e`, the result is exactly one
document whose content is the human-readable message containing `e` and whose
metadata is `error = processing_failed` and the base file name; the single
outcome also shows no retry happens. -/
theorem c6_transport_failure_placeholder (L : Loader) (e : String) :
    loadModel L (.error e) =
      [{ page_content := "Error during processing: " ++ e,
         metadata := [("error", .str "processing_failed"),
                      ("file_name", .str (basename L.file_path))] }] := rfl

/-- C7: every document in every `load` result carries
`file_name = basename file_path` in its metadata. -/
theorem c7_file_name_everywhere (L : Loader) (o : Except String OcrResponse)
    (d : Document) (hd : d ∈ loadModel L o) :
    d.metadata.lookup "file_name" = some (.str (basename L.file_path)) := by
  rcases mem_loadModel L o d hd with ⟨e, rfl⟩ | rfl | ⟨tp, rfl⟩ |
    ⟨tp, i, v, _, rfl⟩
  · rfl
  · rfl
  · rfl
  · rfl

/-- C7 witness: the theorem applied to the error-placeholder outcome. -/
theorem c7_file_name_everywhere_witness :
    errorDoc exLoader "boom" ∈ loadModel exLoader (.error "boom") ∧
    (errorDoc exLoader "boom").metadata.lookup "file_name" =
      some (.str (basename exLoader.file_path)) :=
  ⟨by simp [loadModel],
    c7_file_name_everywhere exLoader (.error "boom") (errorDoc exLoader "boom")
      (by simp [loadModel])⟩

/-- C2 counterexample: at N = 0 the claim's hypotheses hold vacuously (the
`pages` field is a list of 0 entries), yet the mapping produces 1 document
(the `no_pages` placeholder, because an empty list is falsy in Python), not
0. -/
theorem c2_zero_pages_counterexample :
    (processResults exLoader { pages := some ([] : List PageData) }).length
      ≠ 0 := by
  decide

/-- C2 (amended with N ≥ 1): a response whose `pages` list has N ≥ 1 entries,
entry j carrying markdown string `md j` that is non-empty after trimming and
index j, maps to exactly N documents in index order, document j being the
page document with content `pyStrip (md j)`, `page = j`,
`page_label = j + 1`, `total_pages = N` and `content_length` the trimmed
length. -/
theorem c2_wellformed_mapping (L : Loader) (md : Nat → String) (N : Nat)
    (hN : 0 < N) (hmd : ∀ j, j < N → pyStrip (md j) ≠ "") :
    processResults L
        { pages := some ((List.range N).map
            (fun (j : Nat) =>
              { markdown := some (.str (md j)),
                index := some (j : Int) })) } =
      (List.range N).map
        (fun (j : Nat) => pageDoc L N (j : Int) (pyStrip (md j))) ∧
    ((List.range N).map
        (fun (j : Nat) => pageDoc L N (j : Int) (pyStrip (md j)))).length = N := by
  set pages := (List.range N).map
    (fun j => ({ markdown := some (.str (md j)),
                 index := some (j : Int) } : PageData)) with hpages
  have hlen : pages.length = N := by simp [hpages]
  have hne : pages ≠ [] := by
    intro he
    rw [he] at hlen
    simp at hlen
    omega
  have hmap : pages.filterMap (mapPage L N) =
      (List.range N).map (fun (j : Nat) => pageDoc L N (j : Int) (pyStrip (md j))) := by
    rw [hpages, List.filterMap_map]
    apply filterMap_congr_some
    intro j hj
    have hjN : j < N := List.mem_range.mp hj
    show mapPage L N
        { markdown := some (.str (md j)), index := some (j : Int) } =
      some (pageDoc L N (j : Int) (pyStrip (md j)))
    rw [show mapPage L N
          { markdown := some (.str (md j)), index := some (j : Int) } =
        (if cleanedContent (.str (md j)) = "" then none
         else some (pageDoc L N (j : Int) (cleanedContent (.str (md j)))))
        from rfl]
    rw [show cleanedContent (.str (md j)) = pyStrip (md j) from rfl,
      if_neg (hmd j hjN)]
  have hmapne :
      (List.range N).map (fun (j : Nat) => pageDoc L N (j : Int) (pyStrip (md j)))
        ≠ [] := by
    intro he
    have := congrArg List.length he
    simp at this
    omega
  refine ⟨?_, by simp⟩
  rw [processResults_some L pages hne, hlen, hmap, if_neg hmapne]

/-- C2 witness: the amended theorem applied at N = 2 with markdown
`" page text "` on both pages. -/
theorem c2_wellformed_mapping_witness :
    ((0 : Nat) < 2 ∧ (∀ j : Nat, j < 2 → pyStrip " page text " ≠ "")) ∧
    (processResults exLoader
        { pages := some ((List.range 2).map
            (fun (j : Nat) =>
              { markdown := some (.str " page text "),
                index := some (j : Int) })) } =
      (List.range 2).map
        (fun (j : Nat) => pageDoc exLoader 2 (j : Int) (pyStrip " page text ")) ∧
    ((List.range 2).map
        (fun (j : Nat) => pageDoc exLoader 2 (j : Int) (pyStrip " page text "))).length
      = 2) :=
  ⟨⟨by decide, fun j hj => by decide⟩,
    c2_wellformed_mapping exLoader (fun _ => " page text ") 2 (by decide)
      (fun j hj => by
        show pyStrip " page text " ≠ ""
        decide)⟩

/-- C5: a page entry with missing/null markdown, missing/null index, or
content that cleans to the empty string produces no document, and a non-empty
`pages` list all of whose entries are filtered this way maps to exactly one
`no_valid_pages` placeholder carrying the count of page entries, not to an
empty list. -/
theorem c5_all_filtered_placeholder (L : Loader) :
    (∀ (tp : Nat) (pd : PageData),
        (pd.markdown = none ∨ pd.index = none ∨
          (∀ v, pd.markdown = some v → cleanedContent v = "")) →
        mapPage L tp pd = none) ∧
    (∀ pages : List PageData, pages ≠ [] →
        (∀ pd ∈ pages,
          pd.markdown = none ∨ pd.index = none ∨
            (∀ v, pd.markdown = some v → cleanedContent v = "")) →
        processResults L { pages := some pages } =
          [{ page_content := "No valid text content found in document",
             metadata := [("error", .str "no_valid_pages"),
                          ("total_pages", .int pages.length),
                          ("file_name", .str (basename L.file_path))] }]) := by
  have hskip : ∀ (tp : Nat) (pd : PageData),
      (pd.markdown = none ∨ pd.index = none ∨
        (∀ v, pd.markdown = some v → cleanedContent v = "")) →
      mapPage L tp pd = none := by
    intro tp pd h
    obtain ⟨m, i⟩ := pd
    cases m with
    | none => cases i <;> rfl
    | some v =>
      cases i with
      | none => rfl
      | some i =>
        rcases h with h | h | h
        · simp at h
        · simp at h
        · have hc := h v rfl
          show (if cleanedContent v = "" then none
                else some (pageDoc L tp i (cleanedContent v))) = none
          rw [if_pos hc]
  refine ⟨hskip, ?_⟩
  intro pages hne hall
  have hf : pages.filterMap (mapPage L pages.length) = [] :=
    List.filterMap_eq_nil_iff.mpr
      (fun pd hpd => hskip pages.length pd (hall pd hpd))
  rw [processResults_some L pages hne, if_pos hf]
  rfl

/-- C5 witness: a two-entry page list (one entry with missing markdown, one
with whitespace-only markdown) collapses to the `no_valid_pages`
placeholder. -/
theorem c5_all_filtered_placeholder_witness :
    (([⟨none, some 0⟩, ⟨some (.str "  "), some 1⟩] : List PageData) ≠ []) ∧
    processResults exLoader
        { pages := some [⟨none, some 0⟩, ⟨some (.str "  "), some 1⟩] } =
      [{ page_content := "No valid text content found in document",
         metadata := [("error", .str "no_valid_pages"),
                      ("total_pages",
                        .int ([⟨none, some 0⟩,
                          ⟨some (.str "  "), some 1⟩] : List PageData).length),
                      ("file_name", .str (basename exLoader.file_path))] }] := by
  refine ⟨by simp, ?_⟩
  apply (c5_all_filtered_placeholder exLoader).2
  · simp
  · intro pd hpd
    rcases List.mem_cons.mp hpd with rfl | hpd2
    · exact Or.inl rfl
    · rcases List.mem_cons.mp hpd2 with rfl | h3
      · refine Or.inr (Or.inr ?_)
        intro v hv
        have : (JVal.str "  ") = v := by simpa using hv
        rw [← this]
        decide
      · cases h3

/-- A page list with out-of-order and duplicated indices, one entry of which
is filtered out. -/
def pagesEx : List PageData :=
  [{ markdown := some (.str "beta"), index := some 2 },
   { markdown := some (.str "alpha"), index := some 0 },
   { markdown := some (.str ""), index := some 1 },
   { markdown := some (.str "gamma"), index := some 2 }]

/-- C8: whenever at least one page survives the filter, `_process_results`
returns exactly the per-entry survivors, in the order the entries appeared in
the response (`filterMap` preserves list order); no re-sorting by index
occurs, regardless of the index values. -/
theorem c8_order_preserved (L : Loader) (pages : List PageData)
    (h : pages.filterMap (mapPage L pages.length) ≠ []) :
    processResults L { pages := some pages } =
      pages.filterMap (mapPage L pages.length) := by
  have hne : pages ≠ [] := by
    intro he
    rw [he] at h
    simp at h
  rw [processResults_some L pages hne, if_neg h]

/-- C8 witness: the theorem applied to a page list whose indices are out of
order and duplicated. -/
theorem c8_order_preserved_witness :
    pagesEx.filterMap (mapPage exLoader pagesEx.length) ≠ [] ∧
    processResults exLoader { pages := some pagesEx } =
      pagesEx.filterMap (mapPage exLoader pagesEx.length) :=
  ⟨by decide, c8_order_preserved exLoader pagesEx (by decide)⟩

/-- C9: a present, non-null markdown value of any JSON kind is not skipped
for being a non-string: it is stringified with Python `str`, stripped, and
(when the stripped form is non-empty) emitted as the document content, with
`content_length` computed over that string form; `cleanedContent` agrees with
stringify-then-strip on every value. -/
theorem c9_nonstring_markdown (L : Loader) (tp : Nat) (v : JVal) (i : Int)
    (h : pyStrip v.toStr ≠ "") :
    cleanedContent v = pyStrip v.toStr ∧
    mapPage L tp { markdown := some v, index := some i } =
      some { page_content := pyStrip v.toStr,
             metadata := [("page", .int i), ("page_label", .int (i + 1)),
                          ("total_pages", .int tp),
                          ("file_name", .str (basename L.file_path)),
                          ("processing_engine", .str "mistral-ocr-azure"),
                          ("content_length",
                            .int (pyStrip v.toStr).length)] } := by
  have hc : cleanedContent v = pyStrip v.toStr := cleanedContent_eq v
  refine ⟨hc, ?_⟩
  show (if cleanedContent v = "" then none
        else some (pageDoc L tp i (cleanedContent v))) =
    some { page_content := pyStrip v.toStr,
           metadata := [("page", .int i), ("page_label", .int (i + 1)),
                        ("total_pages", .int tp),
                        ("file_name", .str (basename L.file_path)),
                        ("processing_engine", .str "mistral-ocr-azure"),
                        ("content_length",
                          .int (pyStrip v.toStr).length)] }
  rw [hc, if_neg h]
  rfl

/-- C9 witness: the numeric markdown value 42 is stringified to "42" and
emitted, not skipped. -/
theorem c9_nonstring_markdown_witness :
    pyStrip (JVal.num 42).toStr ≠ "" ∧
    (cleanedContent (.num 42) = pyStrip (JVal.num 42).toStr ∧
      mapPage exLoader 1 { markdown := some (.num 42), index := some 0 } =
        some { page_content := pyStrip (JVal.num 42).toStr,
               metadata := [("page", .int 0), ("page_label", .int (0 + 1)),
                            ("total_pages", .int 1),
                            ("file_name", .str (basename exLoader.file_path)),
                            ("processing_engine", .str "mistral-ocr-azure"),
                            ("content_length",
                              .int (pyStrip (JVal.num 42).toStr).length)] }) :=
  ⟨by decide, c9_nonstring_markdown exLoader 1 (.num 42) 0 (by decide)⟩

/-- C10: every document any `load` outcome can return has non-empty content;
documents carrying a `content_length` metadata entry (the success documents)
have it equal to the content's length, and their content is its own strip,
i.e. has no leading or trailing whitespace. -/
theorem c10_nonempty_content (L : Loader) (o : Except String OcrResponse)
    (d : Document) (hd : d ∈ loadModel L o) :
    d.page_content ≠ "" ∧
      (∀ n : Int, d.metadata.lookup "content_length" = some (.int n) →
        n = (d.page_content.length : Int) ∧
          pyStrip d.page_content = d.page_content) := by
  rcases mem_loadModel L o d hd with ⟨e, rfl⟩ | rfl | ⟨tp, rfl⟩ |
    ⟨tp, i, v, hc, rfl⟩
  · constructor
    · show "Error during processing: " ++ e ≠ ""
      intro he
      have h0 : ("Error during processing: " ++ e).length = 0 := by
        rw [he]
        rfl
      rw [String.length_append] at h0
      have h25 : ("Error during processing: " : String).length = 25 := by
        decide
      rw [h25] at h0
      omega
    · intro n hn
      rw [show (errorDoc L e).metadata.lookup "content_length" = none
          from rfl] at hn
      cases hn
  · constructor
    · show "No text content found" ≠ ""
      decide
    · intro n hn
      rw [show (noPagesDoc L).metadata.lookup "content_length" = none
          from rfl] at hn
      cases hn
  · constructor
    · show "No valid text content found in document" ≠ ""
      decide
    · intro n hn
      rw [show (noValidDoc L tp).metadata.lookup "content_length" = none
          from rfl] at hn
      cases hn
  · refine ⟨hc, ?_⟩
    intro n hn
    rw [show (pageDoc L tp i (cleanedContent v)).metadata.lookup
          "content_length" =
        some (.int ((cleanedContent v).length : Int)) from rfl] at hn
    show n = ((cleanedContent v).length : Int) ∧
      pyStrip (cleanedContent v) = cleanedContent v
    simp only [Option.some.injEq, MVal.int.injEq] at hn
    exact ⟨hn.symm, pyStrip_cleanedContent v⟩

/-- C10 witness: the theorem applied to the `no_pages` placeholder
outcome. -/
theorem c10_nonempty_content_witness :
    noPagesDoc exLoader ∈ loadModel exLoader (.ok { pages := none }) ∧
    ((noPagesDoc exLoader).page_content ≠ "" ∧
      (∀ n : Int,
        (noPagesDoc exLoader).metadata.lookup "content_length" =
            some (.int n) →
          n = ((noPagesDoc exLoader).page_content.length : Int) ∧
            pyStrip (noPagesDoc exLoader).page_content =
              (noPagesDoc exLoader).page_content)) :=
  ⟨by simp [loadModel, processResults],
    c10_nonempty_content exLoader (.ok { pages := none })
      (noPagesDoc exLoader) (by simp [loadModel, processResults])⟩

end AzureMistral
